import Mathlib

/-!
Verification of `src/packages/fast-jss-manager-angular/src/manage-jss.ts`.

The TypeScript source wraps an Angular component class in a `JSSManager`
subclass that separates a JSS style object into static and dynamic rules,
caches the separated result in class-level maps, and drives the JSS
stylesheets through the Angular lifecycle hooks.  This file gives a shallow
embedding of that code: JS objects holding style rules become the mutual
inductive `Rule`/`Tree`, JS association objects become association lists,
object references (WeakMap keys) become `Nat` identifiers, the shared `jss`
module and the `uuid` generator become counters in a `World` record, and
every observable side effect (stylesheet compilation, manager registration,
attach/update/detach, DOM event dispatch) is recorded in an effect trace.
-/

namespace ManageJss

/-- A JS configuration object (the design-system config), modelled as an
association object of string fields.  Dynamic rule resolvers consume it. -/
abbrev Config := List (String × String)

mutual

/-- A value in a JSS style object: a literal CSS string, a resolver function
`(config) => string` (opaque, identified by a `Nat` tag), or a nested rule
object — mirroring `ICSSRules<T>` of the source. -/
inductive Rule where
  | lit : String → Rule
  | resolver : Nat → Rule
  | nested : Tree → Rule

/-- A JSS style object: an ordered association of rule names to `Rule`
values (JS objects preserve insertion order and have no duplicate keys). -/
inductive Tree where
  | nil : Tree
  | cons : String → Rule → Tree → Tree

end

deriving instance DecidableEq for Rule, Tree
deriving instance Repr for Rule, Tree

/-- First-match lookup of a rule name in a style object. -/
def Tree.lookup : Tree → String → Option Rule
  | Tree.nil, _ => none
  | Tree.cons k r rest, x => if k = x then some r else Tree.lookup rest x

/-- A style object with no keys (`Object.keys(o).length === 0`). -/
def Tree.isEmpty : Tree → Bool
  | Tree.nil => true
  | Tree.cons _ _ _ => false

/-- Conjunction of a boolean predicate over all entries of a style object. -/
def Tree.all : Tree → (String → Rule → Bool) → Bool
  | Tree.nil, _ => true
  | Tree.cons k r rest, p => p k r && Tree.all rest p

/-- Propositional counterpart of `Tree.all`, used to state per-entry facts. -/
def Tree.Forall : Tree → (String → Rule → Prop) → Prop
  | Tree.nil, _ => True
  | Tree.cons k r rest, P => P k r ∧ Tree.Forall rest P

/-- First key of a style object (`Object.keys(styles)[0]`), if any. -/
def Tree.firstKey : Tree → Option String
  | Tree.nil => none
  | Tree.cons k _ _ => some k

/-- First-match lookup in a JS association object modelled as a list. -/
def alookup {α β : Type} [DecidableEq α] : List (α × β) → α → Option β
  | [], _ => none
  | (k, v) :: rest, x => if k = x then some v else alookup rest x

/-- JS property assignment `m[k] = v`: overwrite in place if the key exists
(keeping its position), otherwise append the new key at the end. -/
def aset {α β : Type} [DecidableEq α] : List (α × β) → α → β → List (α × β)
  | [], k, v => [(k, v)]
  | (k', v') :: rest, k, v =>
    if k' = k then (k, v) :: rest else (k', v') :: aset rest k v

/-- Keys of an association list are pairwise distinct (always true of the
JS objects the source iterates over). -/
def nodupKeys {α β : Type} [DecidableEq α] : List (α × β) → Bool
  | [] => true
  | (k, _) :: rest => !(alookup rest k).isSome && nodupKeys rest

mutual

/-- Modelled from the spec: the repository utility `getStaticStyles`
(imported from `./utilities/get-static-styles`, not present under `src/`).
Per §4.1 of the spec it keeps the literal-valued rules of one entry,
dropping resolver values, and keeps a nested object only if its static
part is not recursively empty ("an object that is recursively empty counts
as absent, not as an empty object"). -/
def staticOfRule : Rule → Option Rule
  | Rule.lit s => some (Rule.lit s)
  | Rule.resolver _ => none
  | Rule.nested t =>
    let s := getStaticStyles t
    if s.isEmpty then none else some (Rule.nested s)

/-- Modelled from the spec: `getStaticStyles` on a whole style object —
the sub-tree of literal-valued / nested-literal rules, preserving order. -/
def getStaticStyles : Tree → Tree
  | Tree.nil => Tree.nil
  | Tree.cons k r rest =>
    match staticOfRule r with
    | some r' => Tree.cons k r' (getStaticStyles rest)
    | none => getStaticStyles rest

end

mutual

/-- Modelled from the spec: the dynamic side of one rule value, following
`extractDynamic` of §6 (the `jss` collaborator's `getDynamicStyles`):
resolver values are kept, literals dropped, nested objects kept only when
their dynamic part is not recursively empty. -/
def dynamicOfRule : Rule → Option Rule
  | Rule.lit _ => none
  | Rule.resolver n => some (Rule.resolver n)
  | Rule.nested t =>
    let d := getDynamicStyles t
    if d.isEmpty then none else some (Rule.nested d)

/-- Modelled from the spec: `getDynamicStyles` of the external CSS-in-JS
engine — the sub-tree of resolver-valued rules, preserving order. -/
def getDynamicStyles : Tree → Tree
  | Tree.nil => Tree.nil
  | Tree.cons k r rest =>
    match dynamicOfRule r with
    | some r' => Tree.cons k r' (getDynamicStyles rest)
    | none => getDynamicStyles rest

end

/-- Modelled from the spec: the repository utility `isEmptyObject`
(imported from `./utilities/object`, not present under `src/`): an object
with zero own keys. -/
def isEmptyObject (t : Tree) : Bool := t.isEmpty

/-- An observable side effect of the manager on its collaborators: the jss
engine (`createStyleSheet`, `removeStyleSheet`, sheet `attach`/`update`/
`detach`), the shared `SheetsManager` (`add`/`manage`/`unmanage`) and the
DOM event layer (`dispatchEvent`).  Sheets are identified by the `Nat`
allocated at their creation; `link` is the option passed to
`jss.createStyleSheet`. -/
inductive Effect where
  | extractDynamicCall
  | extractStaticCall
  | createStyleSheet (sheet : Nat) (link : Bool)
  | managerAdd (sheet : Nat)
  | managerManage (sheet : Nat)
  | managerUnmanage (sheet : Nat)
  | sheetAttach (sheet : Nat)
  | sheetUpdate (sheet : Nat) (cfg : Config)
  | sheetDetach (sheet : Nat)
  | removeStyleSheet (sheet : Nat)
  | dispatchEvent (name : String)
deriving DecidableEq, Repr

/-- The process-wide mutable environment shared by every wrapped class: the
`uuid` generator (a fresh-identifier counter), the `jss` module singleton
(a fresh-sheet counter), and the chronological trace of observable
effects. -/
structure World where
  uuidCtr : Nat := 0
  sheetCtr : Nat := 0
  trace : List Effect := []
deriving DecidableEq, Repr

/-- Record one observable effect. -/
def World.emit (w : World) (e : Effect) : World :=
  { w with trace := w.trace ++ [e] }

/-- Next `uuid()` value (uuid/v1 strings are globally unique; we model them
by a counter). -/
def World.uuid (w : World) : Nat × World :=
  (w.uuidCtr, { w with uuidCtr := w.uuidCtr + 1 })

/-- Model of `jss.createStyleSheet(styles, options)`: allocates a fresh
sheet handle and records the compilation, with its `link` option. -/
def jssCreateStyleSheet (w : World) (link : Bool) : Nat × World :=
  (w.sheetCtr,
    { w with
      sheetCtr := w.sheetCtr + 1,
      trace := w.trace ++ [Effect.createStyleSheet w.sheetCtr link] })

/-- Model of `ISeparatedStylesheet<S, C>`: optional static rule tree,
optional compiled static sheet handle, optional dynamic rule tree.  Absent
fields model JS properties that were never assigned. -/
structure ISeparatedStylesheet where
  staticStyles : Option Tree := none
  staticStyleSheet : Option Nat := none
  dynamicStyles : Option Tree := none
deriving DecidableEq, Repr

/-- The static members of one `JSSManager` class.  `manageJss(styles)(Base)`
evaluates the inner function once per wrapped component, creating a fresh
class object — so each wrapped class owns fresh copies of these maps.
WeakMap keys (object references) are modelled as `Nat` identifiers. -/
structure ClassStatics where
  styleMap : List (Nat × Nat) := []
  componentMap : List (Nat × Nat) := []
  separatedStyles : List ((Nat × Nat) × ISeparatedStylesheet) := []
deriving DecidableEq, Repr

/-- The object reference used as the `componentMap` key at line 151/152 of
the source: the `Component` symbol imported from `@angular/core` — a single
module-level object, the same for every wrapped component. -/
def angularComponent : Nat := 0

/-- Model of `IJSSManagerState`: handles of the sheets stored on
`this.state`. -/
structure IJSSManagerState where
  staticStyleSheet : Option Nat := none
  dynamicStyleSheet : Option Nat := none
deriving DecidableEq, Repr

/-- Per-instance fields of a `JSSManager` instance.  `none` models a JS
field that has not been assigned yet (is `undefined`). -/
structure JSSInstance where
  state : Option IJSSManagerState := none
  config : Option Config := none
  className : Option String := none
  instanceId : Option (Nat × Nat) := none
deriving DecidableEq, Repr

/-- Model of the `designSystem` getter: `this.config ? this.config : {}`.
Every delivered configuration is a JS object and hence truthy, so this is
the stored configuration, defaulting to the empty object. -/
def designSystem (inst : JSSInstance) : Config :=
  match inst.config with
  | some c => c
  | none => []

/-- Model of the `getConfig` event listener registered in `ngOnInit` (lines
121–127): store the event detail in `this.config`, then if a dynamic sheet
exists update it against `this.designSystem`.  The listener is added after
`this.state = {}` and is never removed, so it can fire at any later time —
including after `ngOnDestroy`. -/
def deliverConfig (w : World) (inst : JSSInstance) (detail : Config) :
    JSSInstance × World :=
  let inst := { inst with config := some detail }
  match inst.state with
  | some st =>
    match st.dynamicStyleSheet with
    | some d => (inst, w.emit (Effect.sheetUpdate d (designSystem inst)))
    | none => (inst, w)
  | none => (inst, w)

/-- Model of `ngOnInit` (lines 114–138): create the empty state object,
register the `getConfig` listener, dispatch `registerComponent`, then
dispatch a `getConfig` event carrying `{}` — which the instance's own
just-registered capture listener receives synchronously, storing the empty
configuration.  (The `update` listener only re-dispatches that same event;
external deliveries are modelled by `deliverConfig`.) -/
def ngOnInit (w : World) (inst : JSSInstance) : JSSInstance × World :=
  let inst := { inst with state := some {} }
  let w := w.emit (Effect.dispatchEvent "registerComponent")
  let w := w.emit (Effect.dispatchEvent "getConfig")
  deliverConfig w inst []

/-- Model of `separateStyles` (lines 248–270): extract the dynamic and the
static sub-trees, then populate only the keys whose side is a non-empty
object, compiling the static side eagerly. -/
def separateStyles (w : World) (componentStyles : Tree) :
    ISeparatedStylesheet × World :=
  let dynamicStyles := getDynamicStyles componentStyles
  let w := w.emit Effect.extractDynamicCall
  let staticStyles := getStaticStyles componentStyles
  let w := w.emit Effect.extractStaticCall
  let sep : ISeparatedStylesheet :=
    if !(isEmptyObject dynamicStyles) then { dynamicStyles := some dynamicStyles }
    else {}
  if !(isEmptyObject staticStyles) then
    let (sheet, w) := jssCreateStyleSheet w false
    ({ sep with staticStyles := some staticStyles, staticStyleSheet := some sheet }, w)
  else (sep, w)

/-- Model of the JS for-in loop of `getClassNames` (lines 282–290): fold the
dynamic class map into the accumulated class-name object, joining with a
single space when the rule name already has a static class. -/
def mergeDynamicClasses (classNames : Config) : Config → Config
  | [] => classNames
  | (k, v) :: rest =>
    let classNames :=
      match alookup classNames k with
      | some existing => aset classNames k (existing ++ " " ++ v)
      | none => aset classNames k v
    mergeDynamicClasses classNames rest

/-- Model of `getClassNames` (lines 275–293).  `classes` maps a sheet
handle to its `classes` object (rule name → generated class name), provided
by the external jss engine. -/
def getClassNames (classes : Nat → Config) (st : IJSSManagerState) : Config :=
  let classNames :=
    match st.staticStyleSheet with
    | some s => classes s
    | none => []
  match st.dynamicStyleSheet with
  | some d => mergeDynamicClasses classNames (classes d)
  | none => classNames

/-- The JS fault raised by `WeakMap.prototype.set` when the key is not an
object (here: `styleMap.set(undefined, uuid())` for a wrapper created with
no style set). -/
inductive JSError where
  | invalidWeakMapKey
deriving DecidableEq, Repr

/-- Success path of `ngAfterContentInit` (lines 140–192), for a style set
that is an actual object `stylesRef ↦ stylesVal`: mint ids for the style
object and for the `Component` key on first sight, build the composite
instance id, consult the per-class `separatedStyles` cache (separating and
storing on a miss), copy the cached static sheet into the instance state,
compile a fresh instance-owned dynamic sheet (`link: true`) when dynamic
styles exist, and set `className` from the first declared rule key. -/
def ngAfterContentInitCore (w : World) (cs : ClassStatics) (inst : JSSInstance)
    (classes : Nat → Config) (stylesRef : Nat) (stylesVal : Tree) :
    JSSInstance × ClassStatics × World :=
  let (cs, w) :=
    if (alookup cs.styleMap stylesRef).isSome then (cs, w)
    else
      let (id, w) := w.uuid
      ({ cs with styleMap := aset cs.styleMap stylesRef id }, w)
  let (cs, w) :=
    if (alookup cs.componentMap angularComponent).isSome then (cs, w)
    else
      let (id, w) := w.uuid
      ({ cs with componentMap := aset cs.componentMap angularComponent id }, w)
  let styleId := (alookup cs.styleMap stylesRef).getD 0
  let componentId := (alookup cs.componentMap angularComponent).getD 0
  let instanceId := (componentId, styleId)
  let inst := { inst with instanceId := some instanceId }
  let (sep, cs, w) :=
    match alookup cs.separatedStyles instanceId with
    | some s => (s, cs, w)
    | none =>
      let (s, w) := separateStyles w stylesVal
      (s, { cs with separatedStyles := aset cs.separatedStyles instanceId s }, w)
  let st1 : IJSSManagerState :=
    match sep.staticStyleSheet with
    | some sheet => { staticStyleSheet := some sheet }
    | none => {}
  let (st2, w) :=
    match sep.dynamicStyles with
    | some _ =>
      let (sheet, w) := jssCreateStyleSheet w true
      ({ st1 with dynamicStyleSheet := some sheet }, w)
    | none => (st1, w)
  let inst := { inst with state := some st2 }
  let inst := { inst with className :=
    match stylesVal.firstKey with
    | some k => alookup (getClassNames classes st2) k
    | none => none }
  (inst, cs, w)

/-- Model of `ngAfterContentInit` (lines 140–192).  When the wrapper was
created without a style set (`styles` is `undefined`), line 148 executes
`styleMap.set(undefined, uuid())`, which throws a `TypeError` — modelled as
`JSError.invalidWeakMapKey`. -/
def ngAfterContentInit (w : World) (cs : ClassStatics) (inst : JSSInstance)
    (classes : Nat → Config) (styles : Option (Nat × Tree)) :
    Except JSError (JSSInstance × ClassStatics × World) :=
  match styles with
  | none => Except.error JSError.invalidWeakMapKey
  | some (r, t) => Except.ok (ngAfterContentInitCore w cs inst classes r t)

/-- Model of `ngAfterViewInit` (lines 194–209): register and manage the
static sheet with the shared manager if present, then attach the dynamic
sheet and immediately update it against the current configuration. -/
def ngAfterViewInit (w : World) (inst : JSSInstance) : World :=
  let st := inst.state.getD {}
  let w :=
    match st.staticStyleSheet with
    | some s => (w.emit (Effect.managerAdd s)).emit (Effect.managerManage s)
    | none => w
  match st.dynamicStyleSheet with
  | some d =>
    (w.emit (Effect.sheetAttach d)).emit (Effect.sheetUpdate d (designSystem inst))
  | none => w

/-- Model of `ngOnDestroy` (lines 211–223): unmanage the static sheet if
present, detach and remove the dynamic sheet if present, and dispatch
`deregisterComponent`.  Neither `this.state` nor the event listeners are
touched. -/
def ngOnDestroy (w : World) (inst : JSSInstance) : World :=
  let st := inst.state.getD {}
  let w :=
    match st.staticStyleSheet with
    | some s => w.emit (Effect.managerUnmanage s)
    | none => w
  let w :=
    match st.dynamicStyleSheet with
    | some d => (w.emit (Effect.sheetDetach d)).emit (Effect.removeStyleSheet d)
    | none => w
  w.emit (Effect.dispatchEvent "deregisterComponent")

/-- Mounting one instance: Angular runs `ngOnInit`, then
`ngAfterContentInit`, then `ngAfterViewInit`, synchronously and in this
order. -/
def mount (w : World) (cs : ClassStatics) (classes : Nat → Config)
    (styles : Option (Nat × Tree)) :
    Except JSError (JSSInstance × ClassStatics × World) :=
  let (inst, w) := ngOnInit w {}
  match ngAfterContentInit w cs inst classes styles with
  | Except.error e => Except.error e
  | Except.ok (inst, cs, w) => Except.ok (inst, cs, ngAfterViewInit w inst)

/-- Success path of `mount`, for a style set that is an actual object. -/
def mountCore (w : World) (cs : ClassStatics) (classes : Nat → Config)
    (r : Nat) (t : Tree) : JSSInstance × ClassStatics × World :=
  let (inst, w) := ngOnInit w {}
  let (inst, cs, w) := ngAfterContentInitCore w cs inst classes r t
  (inst, cs, ngAfterViewInit w inst)

/-- Mount `n` further instances of the same wrapped class with the same
style object. -/
def mountAgain : Nat → World → ClassStatics → (Nat → Config) → Nat → Tree →
    World × ClassStatics
  | 0, w, cs, _, _, _ => (w, cs)
  | n + 1, w, cs, classes, r, t =>
    mountAgain n (mountCore w cs classes r t).2.2
      (mountCore w cs classes r t).2.1 classes r t

/-- Number of occurrences of one effect in a trace. -/
def countEffect (tr : List Effect) (e : Effect) : Nat :=
  (tr.filter (fun x => decide (x = e))).length

/-- A static-stylesheet compilation: `jss.createStyleSheet` without
`link: true`, i.e. the call inside `separateStyles`. -/
def isStaticCompile : Effect → Bool
  | Effect.createStyleSheet _ false => true
  | _ => false

/-- A registration of a sheet with the shared `SheetsManager`. -/
def isManagerAdd : Effect → Bool
  | Effect.managerAdd _ => true
  | _ => false

/-- Number of static-stylesheet compilations in a trace. -/
def countStaticCompile (tr : List Effect) : Nat :=
  (tr.filter isStaticCompile).length

/-- Number of shared-manager registrations in a trace. -/
def countManagerAdd (tr : List Effect) : Nat :=
  (tr.filter isManagerAdd).length

/-- Deliver a sequence of configuration events to one instance, in order
(each delivery is processed synchronously to completion). -/
def deliverAll (w : World) (inst : JSSInstance) : List Config → JSSInstance × World
  | [] => (inst, w)
  | c :: rest =>
    let (inst, w) := deliverConfig w inst c
    deliverAll w inst rest

/-- The scenario of two different component types wrapped with the same
style object: `manageJss(styles)(A)` and `manageJss(styles)(B)` each
evaluate the inner function of `manageJss`, each creating a fresh
`JSSManager` class with its own static maps, while the module-level `jss`
and `uuid` singletons (the `World`) are shared.  One instance of each class
is mounted, A first. -/
def mountTwoClasses (classes : Nat → Config) (r : Nat) (t : Tree) :
    (JSSInstance × ClassStatics) × (JSSInstance × ClassStatics) × World :=
  let resA := mountCore {} {} classes r t
  let resB := mountCore resA.2.2 {} classes r t
  ((resA.1, resA.2.1), (resB.1, resB.2.1), resB.2.2)

/-- The scenario of the same component type wrapped twice, with two style
objects that are distinct references (`r1`, `r2`) but hold the same rule
content `t`: again each wrapping creates a fresh class, and one instance of
each wrapper is mounted. -/
def mountTwoWrappings (classes : Nat → Config) (r1 r2 : Nat) (t : Tree) :
    (JSSInstance × ClassStatics) × (JSSInstance × ClassStatics) × World :=
  let resA := mountCore {} {} classes r1 t
  let resB := mountCore resA.2.2 {} classes r2 t
  ((resA.1, resA.2.1), (resB.1, resB.2.1), resB.2.2)

/-- Destroy a freshly mounted instance, then deliver one more `getConfig`
event to it: the listener registered in `ngOnInit` is never removed, so it
still runs. -/
def destroyThenDeliver (classes : Nat → Config) (r : Nat) (t : Tree)
    (cfg : Config) : JSSInstance × World :=
  let res := mountCore {} {} classes r t
  let w := ngOnDestroy res.2.2 res.1
  deliverConfig w res.1 cfg

/-- Effects of the Attached lifecycle phase (`ngAfterViewInit`):
registration with the shared manager and sheet attachment. -/
def isAttachedPhase : Effect → Bool
  | Effect.managerAdd _ => true
  | Effect.managerManage _ => true
  | Effect.sheetAttach _ => true
  | _ => false

/-- Effects of the Initialized lifecycle phase: creation of a stylesheet
handle. -/
def isCreation : Effect → Bool
  | Effect.createStyleSheet _ _ => true
  | _ => false

/-- No handle-creation effect occurs after any Attached-phase effect. -/
def phaseOrdered : List Effect → Bool
  | [] => true
  | e :: rest =>
    if isAttachedPhase e then rest.all (fun x => !isCreation x)
    else phaseOrdered rest

/-- Sheet `d` receives no `update` before its first `attach`. -/
def updatesOnlyAfterAttach (d : Nat) : List Effect → Bool
  | [] => true
  | Effect.sheetAttach d' :: rest =>
    if d' = d then true else updatesOnlyAfterAttach d rest
  | Effect.sheetUpdate d' _ :: rest =>
    if d' = d then false else updatesOnlyAfterAttach d rest
  | _ :: rest => updatesOnlyAfterAttach d rest

mutual

/-- Well-formedness of one rule value as a JS style value: a nested object
is never recursively empty (spec §4.1 treats a recursively empty object as
absent, so such a value cannot round-trip). -/
def goodR : Rule → Bool
  | Rule.lit _ => true
  | Rule.resolver _ => true
  | Rule.nested t => !t.isEmpty && goodT t

/-- Well-formedness of a style object: no duplicate keys at any level (JS
objects cannot have them) and every value well-formed. -/
def goodT : Tree → Bool
  | Tree.nil => true
  | Tree.cons k r rest => !(Tree.lookup rest k).isSome && goodR r && goodT rest

end

/-- Every key of `s` is a key of `t`. -/
def keysSub (s t : Tree) : Bool :=
  s.all (fun k _ => (t.lookup k).isSome)

mutual

/-- Checks that the original rule value `r` is recombined exactly from its
image in the static sub-tree (`sv`) and in the dynamic sub-tree (`dv`): a
literal must come from the static side alone, a resolver from the dynamic
side alone, and a nested object must be the union, at every nesting level,
of the nested objects found under the same rule name on the two sides. -/
def reconR : Option Rule → Option Rule → Rule → Bool
  | some (Rule.lit a), none, Rule.lit b => a == b
  | none, some (Rule.resolver m), Rule.resolver n => m == n
  | some (Rule.nested s'), some (Rule.nested d'), Rule.nested sub =>
    keysSub s' sub && keysSub d' sub && reconList s' d' sub
  | some (Rule.nested s'), none, Rule.nested sub =>
    keysSub s' sub && keysSub Tree.nil sub && reconList s' Tree.nil sub
  | none, some (Rule.nested d'), Rule.nested sub =>
    keysSub Tree.nil sub && keysSub d' sub && reconList Tree.nil d' sub
  | _, _, _ => false

/-- Per-entry recombination check over all rule names of the original
level. -/
def reconList (s d : Tree) : Tree → Bool
  | Tree.nil => true
  | Tree.cons k r rest =>
    reconR (s.lookup k) (d.lookup k) r && reconList s d rest

end

/-- Recombining the static sub-tree `s` and the dynamic sub-tree `d` by
union at every nesting level yields exactly the tree `t`: the two sides
introduce no rule name that `t` lacks, and every rule of `t` is recovered
from its two images. -/
def reconT (s d t : Tree) : Bool :=
  keysSub s t && keysSub d t && reconList s d t

/-- A rule value that is not a nested object. -/
def isLeafRule : Rule → Bool
  | Rule.nested _ => false
  | _ => true

/-- No rule name bound to a leaf value (literal or resolver) in `t` is
present in both `s` and `d`. -/
def leafKeysDisjoint (s d t : Tree) : Bool :=
  t.all (fun k r => !isLeafRule r || !((s.lookup k).isSome && (d.lookup k).isSome))

/-- No rule name at all is present in both `s` and `d` (the literal reading
of "no rule name appears in both subtrees at the same tree position", at
the root position). -/
def sharedKeyFree (s d : Tree) : Bool :=
  s.all (fun k _ => !(d.lookup k).isSome)

/-! Helper lemmas about association objects. -/

theorem alookup_aset_self {α β : Type} [DecidableEq α]
    (m : List (α × β)) (k : α) (v : β) : alookup (aset m k v) k = some v := by
  induction m with
  | nil => simp [aset, alookup]
  | cons p rest ih =>
    obtain ⟨k', v'⟩ := p
    by_cases h : k' = k
    · subst h; simp [aset, alookup]
    · simp [aset, alookup, h, ih]

theorem alookup_aset_ne {α β : Type} [DecidableEq α]
    (m : List (α × β)) (k x : α) (v : β) (h : k ≠ x) :
    alookup (aset m k v) x = alookup m x := by
  induction m with
  | nil => simp [aset, alookup, h]
  | cons p rest ih =>
    obtain ⟨k', v'⟩ := p
    by_cases h' : k' = k
    · subst h'; simp [aset, alookup, h]
    · simp [aset, alookup, h', ih]

/-- Lookup in the result of the for-in merge loop of `getClassNames`: a
rule name absent from the dynamic classes keeps its accumulated value; a
rule name present in the dynamic classes gets the dynamic class name,
prefixed by the accumulated value and a single space when one exists. -/
theorem mergeDynamicClasses_lookup (dC : Config) :
    ∀ (acc : Config) (k : String), nodupKeys dC = true →
    alookup (mergeDynamicClasses acc dC) k =
      match alookup dC k with
      | none => alookup acc k
      | some v =>
        some (match alookup acc k with
              | some s => s ++ " " ++ v
              | none => v) := by
  induction dC with
  | nil => intro acc k _; simp [mergeDynamicClasses, alookup]
  | cons p rest ih =>
    obtain ⟨k0, v0⟩ := p
    intro acc k hnd
    have hnd' : nodupKeys rest = true := by
      simp [nodupKeys] at hnd; exact hnd.2
    have h0 : alookup rest k0 = none := by
      simp [nodupKeys] at hnd
      exact Option.not_isSome_iff_eq_none.mp (by simp [hnd.1])
    by_cases hk : k0 = k
    · subst hk
      rw [mergeDynamicClasses, ih _ _ hnd']
      rw [h0]
      cases hacc : alookup acc k0 with
      | some e => simp [alookup, hacc, alookup_aset_self]
      | none => simp [alookup, hacc, alookup_aset_self]
    · rw [mergeDynamicClasses, ih _ _ hnd']
      have hacc' :
          alookup (match alookup acc k0 with
            | some existing => aset acc k0 (existing ++ " " ++ v0)
            | none => aset acc k0 v0) k = alookup acc k := by
        cases hacc : alookup acc k0 with
        | some e => simp [alookup_aset_ne _ _ _ _ hk]
        | none => simp [alookup_aset_ne _ _ _ _ hk]
      cases hrest : alookup rest k with
      | some v => simp [alookup, hk, hrest, hacc']
      | none => simp [alookup, hk, hrest, hacc']

/-- C1: for every static class map and dynamic class map (sheet handles 0
and 1, whose `classes` objects are `sC` and `dC`), the class-name merge of
`getClassNames` yields, for each rule name: the static class name alone if
the rule is only static, the dynamic class name alone if it is only
dynamic, and the static class name, a single space, and the dynamic class
name if it is in both. -/
theorem c1_classname_merge (sC dC : Config) (hd : nodupKeys dC = true)
    (k : String) :
    alookup (getClassNames (fun n => if n = 0 then sC else dC)
      { staticStyleSheet := some 0, dynamicStyleSheet := some 1 }) k =
      match alookup sC k, alookup dC k with
      | some s, some d => some (s ++ " " ++ d)
      | some s, none => some s
      | none, some d => some d
      | none, none => none := by
  have h := mergeDynamicClasses_lookup dC sC k hd
  simp only [getClassNames] at *
  norm_num
  rw [h]
  cases hs : alookup sC k with
  | some s => cases hdk : alookup dC k <;> simp [hs, hdk]
  | none => cases hdk : alookup dC k <;> simp [hs, hdk]

/-- Witness for C1 at the spec's example: static classes
`{a: "c1", b: "c2"}` and dynamic classes `{b: "c3", d: "c4"}` merge to
`{a: "c1", b: "c2 c3", d: "c4"}`. -/
theorem c1_classname_merge_witness :
    alookup (getClassNames
      (fun n => if n = 0 then [("a", "c1"), ("b", "c2")]
                else [("b", "c3"), ("d", "c4")])
      { staticStyleSheet := some 0, dynamicStyleSheet := some 1 }) "a"
      = some "c1" ∧
    alookup (getClassNames
      (fun n => if n = 0 then [("a", "c1"), ("b", "c2")]
                else [("b", "c3"), ("d", "c4")])
      { staticStyleSheet := some 0, dynamicStyleSheet := some 1 }) "b"
      = some "c2 c3" ∧
    alookup (getClassNames
      (fun n => if n = 0 then [("a", "c1"), ("b", "c2")]
                else [("b", "c3"), ("d", "c4")])
      { staticStyleSheet := some 0, dynamicStyleSheet := some 1 }) "d"
      = some "c4" :=
  ⟨(c1_classname_merge [("a", "c1"), ("b", "c2")] [("b", "c3"), ("d", "c4")]
      (by decide) "a").trans (by decide),
   (c1_classname_merge [("a", "c1"), ("b", "c2")] [("b", "c3"), ("d", "c4")]
      (by decide) "b").trans (by decide),
   (c1_classname_merge [("a", "c1"), ("b", "c2")] [("b", "c3"), ("d", "c4")]
      (by decide) "d").trans (by decide)⟩

/-- C6: after initialization, a sequence of configuration deliveries adds
to the trace exactly one `update` of the dynamic sheet per delivery, with
the delivered configuration, when a dynamic handle exists — and nothing at
all (in particular no static-sheet or manager operation) when none
exists. -/
theorem c6_config_delivery (st : IJSSManagerState) (cfgs : List Config) :
    ∀ (w : World) (inst : JSSInstance), inst.state = some st →
    (deliverAll w inst cfgs).2.trace =
      w.trace ++ (match st.dynamicStyleSheet with
        | some d => cfgs.map (fun c => Effect.sheetUpdate d c)
        | none => []) := by
  induction cfgs with
  | nil =>
    intro w inst _
    cases st.dynamicStyleSheet <;> simp [deliverAll]
  | cons c rest ih =>
    intro w inst h
    have hst : ({ inst with config := some c } : JSSInstance).state = some st := by
      simp [h]
    cases hdyn : st.dynamicStyleSheet with
    | none =>
      have hrec := ih w { inst with config := some c } hst
      simp [hdyn, h] at hrec
      simp [deliverAll, deliverConfig, h, hdyn, hrec]
    | some d =>
      have hrec := ih (w.emit (Effect.sheetUpdate d c)) { inst with config := some c } hst
      simp [hdyn, h, World.emit] at hrec
      simp [deliverAll, deliverConfig, h, hdyn, designSystem, hrec, World.emit]

/-- Witness for C6: configuration `{color: red}` then `{color: blue}`
delivered to an instance whose dynamic sheet is handle 1 triggers exactly
the two corresponding `update` calls. -/
theorem c6_config_delivery_witness :
    (deliverAll {} { state := some { dynamicStyleSheet := some 1 } }
      [[("color", "red")], [("color", "blue")]]).2.trace =
      [Effect.sheetUpdate 1 [("color", "red")],
       Effect.sheetUpdate 1 [("color", "blue")]] := by
  have h := c6_config_delivery { dynamicStyleSheet := some 1 }
    [[("color", "red")], [("color", "blue")]] {}
    { state := some { dynamicStyleSheet := some 1 } } rfl
  simpa using h

/-- C7: destroying an instance whose state holds neither a static nor a
dynamic sheet handle — exactly the state of an instance whose
initialization stopped after `ngOnInit` — performs no stylesheet or
manager operation at all; the only observable is the `deregisterComponent`
dispatch, and no fault is raised. -/
theorem c7_destroy_without_handles (w : World) (inst : JSSInstance)
    (h : inst.state = some {}) :
    ngOnDestroy w inst = w.emit (Effect.dispatchEvent "deregisterComponent") := by
  simp [ngOnDestroy, h]

/-- Witness for C7: the instance produced by `ngOnInit` alone (as after a
partially failed initialization) can be destroyed, producing only the
deregistration dispatch. -/
theorem c7_destroy_without_handles_witness :
    ngOnDestroy (ngOnInit {} {}).2 (ngOnInit {} {}).1
      = (ngOnInit {} {}).2.emit (Effect.dispatchEvent "deregisterComponent") :=
  c7_destroy_without_handles _ _ (by decide)

/-- C10: the `getConfig` listener registered in `ngOnInit` is never removed
in `ngOnDestroy`, so a configuration delivered after destruction still
stores the configuration on the destroyed instance and still calls `update`
on its dynamic sheet — a sheet that the destroy step had already detached
and removed. -/
theorem c10_listener_survives_destroy (classes : Nat → Config) (r : Nat)
    (t : Tree) (cfg : Config) (hd : (getDynamicStyles t).isEmpty = false) :
    ((mountCore {} {} classes r t).1.state.getD {}).dynamicStyleSheet.isSome
      = true ∧
    (destroyThenDeliver classes r t cfg).1.config = some cfg ∧
    (destroyThenDeliver classes r t cfg).2.trace =
      (ngOnDestroy (mountCore {} {} classes r t).2.2
        (mountCore {} {} classes r t).1).trace ++
      [Effect.sheetUpdate
        (((mountCore {} {} classes r t).1.state.getD {}).dynamicStyleSheet.getD 0)
        cfg] ∧
    countEffect
      (ngOnDestroy (mountCore {} {} classes r t).2.2
        (mountCore {} {} classes r t).1).trace
      (Effect.sheetDetach
        (((mountCore {} {} classes r t).1.state.getD {}).dynamicStyleSheet.getD 0))
      = 1 := by
  by_cases hs : (getStaticStyles t).isEmpty <;>
    simp [destroyThenDeliver, mountCore, ngOnInit, deliverConfig,
      ngAfterContentInitCore, separateStyles, jssCreateStyleSheet,
      World.emit, World.uuid, ngAfterViewInit, ngOnDestroy, designSystem,
      alookup, aset, isEmptyObject, countEffect, hs, hd]

/-- Witness for C10 at a one-resolver style object. -/
theorem c10_listener_survives_destroy_witness :
    ((mountCore {} {} (fun _ => []) 7
        (Tree.cons "b" (Rule.resolver 0) Tree.nil)).1.state.getD
      {}).dynamicStyleSheet.isSome = true ∧
    (destroyThenDeliver (fun _ => []) 7 (Tree.cons "b" (Rule.resolver 0) Tree.nil)
      [("color", "blue")]).1.config = some [("color", "blue")] ∧
    (destroyThenDeliver (fun _ => []) 7 (Tree.cons "b" (Rule.resolver 0) Tree.nil)
      [("color", "blue")]).2.trace =
      (ngOnDestroy
        (mountCore {} {} (fun _ => []) 7
          (Tree.cons "b" (Rule.resolver 0) Tree.nil)).2.2
        (mountCore {} {} (fun _ => []) 7
          (Tree.cons "b" (Rule.resolver 0) Tree.nil)).1).trace ++
      [Effect.sheetUpdate
        (((mountCore {} {} (fun _ => []) 7
            (Tree.cons "b" (Rule.resolver 0) Tree.nil)).1.state.getD
          {}).dynamicStyleSheet.getD 0)
        [("color", "blue")]] ∧
    countEffect
      (ngOnDestroy
        (mountCore {} {} (fun _ => []) 7
          (Tree.cons "b" (Rule.resolver 0) Tree.nil)).2.2
        (mountCore {} {} (fun _ => []) 7
          (Tree.cons "b" (Rule.resolver 0) Tree.nil)).1).trace
      (Effect.sheetDetach
        (((mountCore {} {} (fun _ => []) 7
            (Tree.cons "b" (Rule.resolver 0) Tree.nil)).1.state.getD
          {}).dynamicStyleSheet.getD 0)) = 1 :=
  c10_listener_survives_destroy (fun _ => []) 7
    (Tree.cons "b" (Rule.resolver 0) Tree.nil) [("color", "blue")] (by decide)

theorem countEffect_nil (e : Effect) : countEffect [] e = 0 := rfl

theorem countEffect_append (a b : List Effect) (e : Effect) :
    countEffect (a ++ b) e = countEffect a e + countEffect b e := by
  simp [countEffect, List.filter_append]

theorem countEffect_singleton (x e : Effect) :
    countEffect [x] e = if x = e then 1 else 0 := by
  by_cases h : x = e <;> simp [countEffect, h]

theorem countStaticCompile_append (a b : List Effect) :
    countStaticCompile (a ++ b) = countStaticCompile a + countStaticCompile b := by
  simp [countStaticCompile, List.filter_append]

theorem countEffect_cons (x : Effect) (xs : List Effect) (e : Effect) :
    countEffect (x :: xs) e = (if x = e then 1 else 0) + countEffect xs e := by
  by_cases h : x = e <;> simp [countEffect, h, List.filter, Nat.add_comm]

theorem countStaticCompile_singleton (x : Effect) :
    countStaticCompile [x] = if isStaticCompile x then 1 else 0 := by
  by_cases h : isStaticCompile x <;> simp [countStaticCompile, h]

theorem countStaticCompile_cons (x : Effect) (xs : List Effect) :
    countStaticCompile (x :: xs)
      = (if isStaticCompile x then 1 else 0) + countStaticCompile xs := by
  by_cases h : isStaticCompile x <;>
    simp [countStaticCompile, h, List.filter, Nat.add_comm]

theorem countManagerAdd_cons (x : Effect) (xs : List Effect) :
    countManagerAdd (x :: xs)
      = (if isManagerAdd x then 1 else 0) + countManagerAdd xs := by
  by_cases h : isManagerAdd x <;>
    simp [countManagerAdd, h, List.filter, Nat.add_comm]

theorem countManagerAdd_append (a b : List Effect) :
    countManagerAdd (a ++ b) = countManagerAdd a + countManagerAdd b := by
  simp [countManagerAdd, List.filter_append]

/-- Mounting a further instance of a wrapped class whose caches already
hold the style id, the component id and the separated stylesheet for this
(component, style set) pair leaves the class statics untouched and performs
no style separation and no static compilation: the cached
`ISeparatedStylesheet` object itself is reused. -/
theorem mountCore_cached (w : World) (cs : ClassStatics)
    (classes : Nat → Config) (r sid cid : Nat) (t : Tree)
    (sep : ISeparatedStylesheet)
    (h1 : alookup cs.styleMap r = some sid)
    (h2 : alookup cs.componentMap angularComponent = some cid)
    (h3 : alookup cs.separatedStyles (cid, sid) = some sep) :
    (mountCore w cs classes r t).2.1 = cs ∧
    countEffect (mountCore w cs classes r t).2.2.trace Effect.extractDynamicCall
      = countEffect w.trace Effect.extractDynamicCall ∧
    countEffect (mountCore w cs classes r t).2.2.trace Effect.extractStaticCall
      = countEffect w.trace Effect.extractStaticCall ∧
    countStaticCompile (mountCore w cs classes r t).2.2.trace
      = countStaticCompile w.trace := by
  obtain ⟨ss, sh, ds⟩ := sep
  cases sh <;> cases ds <;>
    simp [mountCore, ngOnInit, deliverConfig, ngAfterContentInitCore,
      jssCreateStyleSheet, World.emit, World.uuid, ngAfterViewInit,
      designSystem, h1, h2, h3, countEffect_append, countEffect_singleton,
      countEffect_cons, countEffect_nil, countStaticCompile_append,
      countStaticCompile_singleton, countStaticCompile_cons, isStaticCompile,
      countStaticCompile]

/-- Mounting `n` further instances on caches that already hold this pair
changes nothing in the class statics and performs no further separation or
static compilation. -/
theorem mountAgain_cached (classes : Nat → Config) (r sid cid : Nat)
    (t : Tree) (sep : ISeparatedStylesheet) :
    ∀ (n : Nat) (w : World) (cs : ClassStatics),
    alookup cs.styleMap r = some sid →
    alookup cs.componentMap angularComponent = some cid →
    alookup cs.separatedStyles (cid, sid) = some sep →
    (mountAgain n w cs classes r t).2 = cs ∧
    countEffect (mountAgain n w cs classes r t).1.trace
      Effect.extractDynamicCall = countEffect w.trace Effect.extractDynamicCall ∧
    countEffect (mountAgain n w cs classes r t).1.trace
      Effect.extractStaticCall = countEffect w.trace Effect.extractStaticCall ∧
    countStaticCompile (mountAgain n w cs classes r t).1.trace
      = countStaticCompile w.trace := by
  intro n
  induction n with
  | zero => intro w cs _ _ _; simp [mountAgain]
  | succ n ih =>
    intro w cs h1 h2 h3
    obtain ⟨hcs, hd, hs, hsc⟩ :=
      mountCore_cached w cs classes r sid cid t sep h1 h2 h3
    rw [mountAgain, hcs]
    obtain ⟨ihcs, ihd, ihs, ihsc⟩ :=
      ih (mountCore w cs classes r t).2.2 cs h1 h2 h3
    exact ⟨ihcs, ihd.trans hd, ihs.trans hs, ihsc.trans hsc⟩

/-- The first mount of a wrapped class populates its caches — the style
object gets uuid 0, the `Component` key gets uuid 1, and a separated
stylesheet is stored under the composite id — with exactly one dynamic
extraction, one static extraction and at most one static compilation. -/
theorem mountCore_fresh_cached (classes : Nat → Config) (r : Nat) (t : Tree) :
    alookup (mountCore {} {} classes r t).2.1.styleMap r = some 0 ∧
    alookup (mountCore {} {} classes r t).2.1.componentMap angularComponent
      = some 1 ∧
    (∃ sep, alookup (mountCore {} {} classes r t).2.1.separatedStyles (1, 0)
      = some sep) ∧
    countEffect (mountCore {} {} classes r t).2.2.trace
      Effect.extractDynamicCall = 1 ∧
    countEffect (mountCore {} {} classes r t).2.2.trace
      Effect.extractStaticCall = 1 ∧
    countStaticCompile (mountCore {} {} classes r t).2.2.trace ≤ 1 := by
  by_cases hs : (getStaticStyles t).isEmpty <;>
  by_cases hd : (getDynamicStyles t).isEmpty <;>
    simp [mountCore, ngOnInit, deliverConfig, ngAfterContentInitCore,
      separateStyles, jssCreateStyleSheet, World.emit, World.uuid,
      ngAfterViewInit, designSystem, alookup, aset, isEmptyObject, hs, hd,
      countEffect, countStaticCompile, isStaticCompile]

/-- C2: mounting any number of further instances with the same (component
reference, style-set reference) pair leaves the class statics — including
the cached `SeparatedStylesheet` stored on the first mount — completely
unchanged, and the whole history still contains exactly one dynamic
extraction, one static extraction and at most one static compilation: the
classification-and-compilation pass of the first mount is never repeated. -/
theorem c2_separation_memoized (classes : Nat → Config) (r : Nat) (t : Tree)
    (n : Nat) :
    (mountAgain n (mountCore {} {} classes r t).2.2
        (mountCore {} {} classes r t).2.1 classes r t).2
      = (mountCore {} {} classes r t).2.1 ∧
    countEffect (mountAgain n (mountCore {} {} classes r t).2.2
        (mountCore {} {} classes r t).2.1 classes r t).1.trace
      Effect.extractDynamicCall = 1 ∧
    countEffect (mountAgain n (mountCore {} {} classes r t).2.2
        (mountCore {} {} classes r t).2.1 classes r t).1.trace
      Effect.extractStaticCall = 1 ∧
    countStaticCompile (mountAgain n (mountCore {} {} classes r t).2.2
        (mountCore {} {} classes r t).2.1 classes r t).1.trace ≤ 1 := by
  obtain ⟨h1, h2, ⟨sep, h3⟩, hcd, hcs, hcc⟩ := mountCore_fresh_cached classes r t
  obtain ⟨hacs, had, has, hac⟩ :=
    mountAgain_cached classes r 0 1 t sep n
      (mountCore {} {} classes r t).2.2 (mountCore {} {} classes r t).2.1
      h1 h2 h3
  exact ⟨hacs, had.trans hcd, has.trans hcs, le_trans (le_of_eq hac) hcc⟩

/-! Helper lemmas about style objects and the static/dynamic separation. -/

/-- List-style induction over a style object (no induction on the rule
values). -/
theorem Tree.consInd {P : Tree → Prop} (hnil : P Tree.nil)
    (hcons : ∀ k r rest, P rest → P (Tree.cons k r rest)) : ∀ t, P t := fun t =>
  match t with
  | Tree.nil => hnil
  | Tree.cons k r rest => hcons k r rest (Tree.consInd hnil hcons rest)

/-- Strong induction over style objects by size, used to recurse into
nested rule values. -/
theorem sizeOf_tree_ind {P : Tree → Prop}
    (step : ∀ t, (∀ u : Tree, sizeOf u < sizeOf t → P u) → P t) : ∀ t, P t :=
  fun t => step t (fun u _hu => sizeOf_tree_ind step u)
termination_by t => sizeOf t
decreasing_by exact _hu


theorem Tree.eq_nil_of_isEmpty : ∀ t : Tree, t.isEmpty = true → t = Tree.nil := by
  intro t
  cases t <;> simp [Tree.isEmpty]

/-- A rule value looked up in a style object is smaller than the object. -/
theorem sizeOf_lookup_lt : ∀ (t : Tree) (k : String) (r : Rule),
    t.lookup k = some r → sizeOf r < sizeOf t := by
  intro t
  induction t using Tree.consInd with
  | hnil => intro k r h; simp [Tree.lookup] at h
  | hcons k0 r0 rest ih =>
    intro k r h
    rw [Tree.lookup] at h
    by_cases hk : k0 = k
    · simp [hk] at h
      subst h
      simp only [Tree.cons.sizeOf_spec]
      omega
    · simp [hk] at h
      have := ih k r h
      simp only [Tree.cons.sizeOf_spec]
      omega

/-- Lookup in the static sub-tree is lookup in the original followed by the
static part of the rule value (for well-formed objects). -/
theorem lookup_getStaticStyles : ∀ t : Tree, goodT t = true → ∀ k : String,
    (getStaticStyles t).lookup k = (t.lookup k).bind staticOfRule := by
  intro t
  induction t using Tree.consInd with
  | hnil => intro _ k; simp [getStaticStyles, Tree.lookup]
  | hcons k0 r0 rest ih =>
    intro hg k
    simp only [goodT, Bool.and_eq_true, Bool.not_eq_true'] at hg
    obtain ⟨⟨h0', _⟩, hrest⟩ := hg
    have h0 : Tree.lookup rest k0 = none := by
      cases hl : Tree.lookup rest k0 with
      | none => rfl
      | some v => rw [hl] at h0'; simp at h0'
    by_cases hk : k0 = k
    · subst hk
      cases hso : staticOfRule r0 with
      | some r' => simp [getStaticStyles, hso, Tree.lookup]
      | none => simp [getStaticStyles, hso, Tree.lookup, ih hrest, h0]
    · cases hso : staticOfRule r0 with
      | some r' => simp [getStaticStyles, hso, Tree.lookup, hk, ih hrest]
      | none => simp [getStaticStyles, hso, Tree.lookup, hk, ih hrest]

/-- Lookup in the dynamic sub-tree is lookup in the original followed by
the dynamic part of the rule value (for well-formed objects). -/
theorem lookup_getDynamicStyles : ∀ t : Tree, goodT t = true → ∀ k : String,
    (getDynamicStyles t).lookup k = (t.lookup k).bind dynamicOfRule := by
  intro t
  induction t using Tree.consInd with
  | hnil => intro _ k; simp [getDynamicStyles, Tree.lookup]
  | hcons k0 r0 rest ih =>
    intro hg k
    simp only [goodT, Bool.and_eq_true, Bool.not_eq_true'] at hg
    obtain ⟨⟨h0', _⟩, hrest⟩ := hg
    have h0 : Tree.lookup rest k0 = none := by
      cases hl : Tree.lookup rest k0 with
      | none => rfl
      | some v => rw [hl] at h0'; simp at h0'
    by_cases hk : k0 = k
    · subst hk
      cases hso : dynamicOfRule r0 with
      | some r' => simp [getDynamicStyles, hso, Tree.lookup]
      | none => simp [getDynamicStyles, hso, Tree.lookup, ih hrest, h0]
    · cases hso : dynamicOfRule r0 with
      | some r' => simp [getDynamicStyles, hso, Tree.lookup, hk, ih hrest]
      | none => simp [getDynamicStyles, hso, Tree.lookup, hk, ih hrest]

theorem tree_forall_mono {P Q : String → Rule → Prop} :
    ∀ t : Tree, Tree.Forall t P → (∀ k r, P k r → Q k r) → Tree.Forall t Q := by
  intro t
  induction t using Tree.consInd with
  | hnil => intro _ _; trivial
  | hcons k0 r0 rest ih =>
    intro h himp
    rw [Tree.Forall] at h ⊢
    exact ⟨himp _ _ h.1, ih h.2 himp⟩

/-- Every entry key of a style object looks itself up successfully. -/
theorem tree_forall_lookup_isSome : ∀ t : Tree,
    Tree.Forall t (fun k _ => (t.lookup k).isSome = true) := by
  intro t
  induction t using Tree.consInd with
  | hnil => trivial
  | hcons k0 r0 rest ih =>
    rw [Tree.Forall]
    refine ⟨by simp [Tree.lookup], tree_forall_mono rest ih ?_⟩
    intro k r hk
    by_cases h : k0 = k <;> simp [Tree.lookup, h, hk]

theorem tree_all_of_forall (p : String → Rule → Bool) :
    ∀ t : Tree, Tree.Forall t (fun k r => p k r = true) → t.all p = true := by
  intro t
  induction t using Tree.consInd with
  | hnil => intro _; rfl
  | hcons k0 r0 rest ih =>
    intro h
    rw [Tree.Forall] at h
    simp [Tree.all, h.1, ih h.2]

theorem reconList_of_forall (s d : Tree) : ∀ u : Tree,
    Tree.Forall u (fun k r => reconR (s.lookup k) (d.lookup k) r = true) →
    reconList s d u = true := by
  intro u
  induction u using Tree.consInd with
  | hnil => intro _; rfl
  | hcons k0 r0 rest ih =>
    intro h
    rw [Tree.Forall] at h
    simp [reconList, h.1, ih h.2]

/-- In a well-formed style object every entry is recovered by lookup and is
itself well-formed. -/
theorem goodT_forall_entries : ∀ t : Tree, goodT t = true →
    Tree.Forall t (fun k r => t.lookup k = some r ∧ goodR r = true) := by
  intro t
  induction t using Tree.consInd with
  | hnil => intro _; trivial
  | hcons k0 r0 rest ih =>
    intro hg
    simp only [goodT, Bool.and_eq_true, Bool.not_eq_true'] at hg
    obtain ⟨⟨h0', hgr⟩, hrest⟩ := hg
    have h0 : Tree.lookup rest k0 = none := by
      cases hl : Tree.lookup rest k0 with
      | none => rfl
      | some v => rw [hl] at h0'; simp at h0'
    rw [Tree.Forall]
    refine ⟨⟨by simp [Tree.lookup], hgr⟩, tree_forall_mono rest (ih hrest) ?_⟩
    rintro k r ⟨hlk, hgr'⟩
    refine ⟨?_, hgr'⟩
    by_cases h : k0 = k
    · subst h; rw [h0] at hlk; cases hlk
    · simp [Tree.lookup, h, hlk]

/-- A non-empty well-formed style object has a non-empty static or a
non-empty dynamic sub-tree. -/
theorem extract_nonempty : ∀ t : Tree, goodT t = true → t ≠ Tree.nil →
    (getStaticStyles t).isEmpty = false ∨ (getDynamicStyles t).isEmpty = false := by
  refine sizeOf_tree_ind ?_
  intro t ih hg hne
  cases t with
  | nil => exact absurd rfl hne
  | cons k0 r0 rest =>
    simp only [goodT, Bool.and_eq_true, Bool.not_eq_true'] at hg
    obtain ⟨⟨_, hgr⟩, _⟩ := hg
    cases r0 with
    | lit s => left; simp [getStaticStyles, staticOfRule, Tree.isEmpty]
    | resolver n => right; simp [getDynamicStyles, dynamicOfRule, Tree.isEmpty]
    | nested sub =>
      simp only [goodR, Bool.and_eq_true, Bool.not_eq_true'] at hgr
      obtain ⟨hemp, hgsub⟩ := hgr
      have hsubne : sub ≠ Tree.nil := by
        intro hh; subst hh; simp [Tree.isEmpty] at hemp
      have hlt : sizeOf sub < sizeOf (Tree.cons k0 (Rule.nested sub) rest) := by
        simp only [Tree.cons.sizeOf_spec, Rule.nested.sizeOf_spec]
        omega
      cases ih sub hlt hgsub hsubne with
      | inl h =>
        left
        have hkeep : staticOfRule (Rule.nested sub)
            = some (Rule.nested (getStaticStyles sub)) := by
          simp [staticOfRule, h]
        simp [getStaticStyles, hkeep, Tree.isEmpty]
      | inr h =>
        right
        have hkeep : dynamicOfRule (Rule.nested sub)
            = some (Rule.nested (getDynamicStyles sub)) := by
          simp [dynamicOfRule, h]
        simp [getDynamicStyles, hkeep, Tree.isEmpty]

/-- Recombining the static and the dynamic sub-trees of a well-formed
style object by union at every nesting level reconstructs the object. -/
theorem recon_separation : ∀ t : Tree, goodT t = true →
    reconT (getStaticStyles t) (getDynamicStyles t) t = true := by
  refine sizeOf_tree_ind ?_
  intro t ih hg
  rw [reconT]
  simp only [Bool.and_eq_true]
  refine ⟨⟨?_, ?_⟩, ?_⟩
  · refine tree_all_of_forall _ _
      (tree_forall_mono _ (tree_forall_lookup_isSome (getStaticStyles t)) ?_)
    intro k r hk
    rw [lookup_getStaticStyles t hg k] at hk
    cases hl : t.lookup k with
    | none => rw [hl] at hk; simp at hk
    | some v => simp [hl]
  · refine tree_all_of_forall _ _
      (tree_forall_mono _ (tree_forall_lookup_isSome (getDynamicStyles t)) ?_)
    intro k r hk
    rw [lookup_getDynamicStyles t hg k] at hk
    cases hl : t.lookup k with
    | none => rw [hl] at hk; simp at hk
    | some v => simp [hl]
  · refine reconList_of_forall _ _ _
      (tree_forall_mono _ (goodT_forall_entries t hg) ?_)
    rintro k r ⟨hlk, hgr⟩
    rw [lookup_getStaticStyles t hg k, lookup_getDynamicStyles t hg k, hlk]
    simp only [Option.some_bind]
    cases r with
    | lit s => simp [staticOfRule, dynamicOfRule, reconR]
    | resolver n => simp [staticOfRule, dynamicOfRule, reconR]
    | nested sub =>
      simp only [goodR, Bool.and_eq_true, Bool.not_eq_true'] at hgr
      obtain ⟨hemp, hgsub⟩ := hgr
      have hsubne : sub ≠ Tree.nil := by
        intro hh; subst hh; simp [Tree.isEmpty] at hemp
      have hlt : sizeOf sub < sizeOf t := by
        have h1 := sizeOf_lookup_lt t k (Rule.nested sub) hlk
        have h2 : sizeOf sub < sizeOf (Rule.nested sub) := by
          simp only [Rule.nested.sizeOf_spec]; omega
        omega
      have hrec := ih sub hlt hgsub
      rw [reconT] at hrec
      simp only [Bool.and_eq_true] at hrec
      obtain ⟨⟨hks, hkd⟩, hrl⟩ := hrec
      cases hse : (getStaticStyles sub).isEmpty with
      | true =>
        have hsnil := Tree.eq_nil_of_isEmpty _ hse
        cases hde : (getDynamicStyles sub).isEmpty with
        | true =>
          cases extract_nonempty sub hgsub hsubne with
          | inl hc => rw [hse] at hc; cases hc
          | inr hc => rw [hde] at hc; cases hc
        | false =>
          have hsor : staticOfRule (Rule.nested sub) = none := by
            simp [staticOfRule, hse]
          have hdor : dynamicOfRule (Rule.nested sub)
              = some (Rule.nested (getDynamicStyles sub)) := by
            simp [dynamicOfRule, hde]
          rw [hsor, hdor]
          rw [hsnil] at hks hrl
          simp [reconR, hks, hkd, hrl]
      | false =>
        have hsor : staticOfRule (Rule.nested sub)
            = some (Rule.nested (getStaticStyles sub)) := by
          simp [staticOfRule, hse]
        cases hde : (getDynamicStyles sub).isEmpty with
        | true =>
          have hdnil := Tree.eq_nil_of_isEmpty _ hde
          have hdor : dynamicOfRule (Rule.nested sub) = none := by
            simp [dynamicOfRule, hde]
          rw [hsor, hdor]
          rw [hdnil] at hkd hrl
          simp [reconR, hks, hkd, hrl]
        | false =>
          have hdor : dynamicOfRule (Rule.nested sub)
              = some (Rule.nested (getDynamicStyles sub)) := by
            simp [dynamicOfRule, hde]
          rw [hsor, hdor]
          simp [reconR, hks, hkd, hrl]

/-- No rule name bound to a literal or a resolver lands in both the static
and the dynamic sub-tree of a well-formed style object. -/
theorem leaf_disjoint_separation : ∀ t : Tree, goodT t = true →
    leafKeysDisjoint (getStaticStyles t) (getDynamicStyles t) t = true := by
  intro t hg
  rw [leafKeysDisjoint]
  refine tree_all_of_forall _ _
    (tree_forall_mono _ (goodT_forall_entries t hg) ?_)
  rintro k r ⟨hlk, _⟩
  rw [lookup_getStaticStyles t hg k, lookup_getDynamicStyles t hg k, hlk]
  cases r with
  | lit s => simp [isLeafRule, staticOfRule, dynamicOfRule]
  | resolver n => simp [isLeafRule, staticOfRule, dynamicOfRule]
  | nested sub => simp [isLeafRule]

/-- C5 counterexample.  First: at `{a: {x: "1", y: resolver}}` the rule
name `a` appears in BOTH the static and the dynamic sub-tree at the same
(root) position, refuting the disjointness half of the claim.  Second: at
`{a: {}}` (a nested object with zero rules) both sub-trees are empty, so
their union fails to reconstruct the original, refuting the reconstruction
half. -/
theorem c5_separation_counterexample :
    ¬ (reconT
        (getStaticStyles (Tree.cons "a"
          (Rule.nested (Tree.cons "x" (Rule.lit "1")
            (Tree.cons "y" (Rule.resolver 0) Tree.nil))) Tree.nil))
        (getDynamicStyles (Tree.cons "a"
          (Rule.nested (Tree.cons "x" (Rule.lit "1")
            (Tree.cons "y" (Rule.resolver 0) Tree.nil))) Tree.nil))
        (Tree.cons "a"
          (Rule.nested (Tree.cons "x" (Rule.lit "1")
            (Tree.cons "y" (Rule.resolver 0) Tree.nil))) Tree.nil) = true ∧
       sharedKeyFree
        (getStaticStyles (Tree.cons "a"
          (Rule.nested (Tree.cons "x" (Rule.lit "1")
            (Tree.cons "y" (Rule.resolver 0) Tree.nil))) Tree.nil))
        (getDynamicStyles (Tree.cons "a"
          (Rule.nested (Tree.cons "x" (Rule.lit "1")
            (Tree.cons "y" (Rule.resolver 0) Tree.nil))) Tree.nil)) = true) ∧
    reconT
      (getStaticStyles (Tree.cons "a" (Rule.nested Tree.nil) Tree.nil))
      (getDynamicStyles (Tree.cons "a" (Rule.nested Tree.nil) Tree.nil))
      (Tree.cons "a" (Rule.nested Tree.nil) Tree.nil) = false := by decide

/-- C5 amended: for every well-formed style object (no duplicate rule
names, no recursively empty nested object), recombining the static and the
dynamic sub-trees produced by the separation — taking their union at every
nesting level — reconstructs the original tree, and no rule name bound to a
literal or resolver value appears in both sub-trees at the same tree
position (a name bound to a nested object with both static and dynamic
descendants necessarily appears in both, as a nested object with disjoint
contents). -/
theorem c5_separation_recombines (t : Tree) (hg : goodT t = true) :
    reconT (getStaticStyles t) (getDynamicStyles t) t = true ∧
    leafKeysDisjoint (getStaticStyles t) (getDynamicStyles t) t = true :=
  ⟨recon_separation t hg, leaf_disjoint_separation t hg⟩

/-- Witness for the amended C5 at
`{root: {color: "red", width: resolver}, x: "1"}`. -/
theorem c5_separation_recombines_witness :
    goodT (Tree.cons "root"
      (Rule.nested (Tree.cons "color" (Rule.lit "red")
        (Tree.cons "width" (Rule.resolver 0) Tree.nil)))
      (Tree.cons "x" (Rule.lit "1") Tree.nil)) = true ∧
    reconT
      (getStaticStyles (Tree.cons "root"
        (Rule.nested (Tree.cons "color" (Rule.lit "red")
          (Tree.cons "width" (Rule.resolver 0) Tree.nil)))
        (Tree.cons "x" (Rule.lit "1") Tree.nil)))
      (getDynamicStyles (Tree.cons "root"
        (Rule.nested (Tree.cons "color" (Rule.lit "red")
          (Tree.cons "width" (Rule.resolver 0) Tree.nil)))
        (Tree.cons "x" (Rule.lit "1") Tree.nil)))
      (Tree.cons "root"
        (Rule.nested (Tree.cons "color" (Rule.lit "red")
          (Tree.cons "width" (Rule.resolver 0) Tree.nil)))
        (Tree.cons "x" (Rule.lit "1") Tree.nil)) = true ∧
    leafKeysDisjoint
      (getStaticStyles (Tree.cons "root"
        (Rule.nested (Tree.cons "color" (Rule.lit "red")
          (Tree.cons "width" (Rule.resolver 0) Tree.nil)))
        (Tree.cons "x" (Rule.lit "1") Tree.nil)))
      (getDynamicStyles (Tree.cons "root"
        (Rule.nested (Tree.cons "color" (Rule.lit "red")
          (Tree.cons "width" (Rule.resolver 0) Tree.nil)))
        (Tree.cons "x" (Rule.lit "1") Tree.nil)))
      (Tree.cons "root"
        (Rule.nested (Tree.cons "color" (Rule.lit "red")
          (Tree.cons "width" (Rule.resolver 0) Tree.nil)))
        (Tree.cons "x" (Rule.lit "1") Tree.nil)) = true :=
  ⟨by decide,
   (c5_separation_recombines _ (by decide)).1,
   (c5_separation_recombines _ (by decide)).2⟩

/-- C3 counterexample: with the style object
`{a: "red", b: resolver}` shared by two component types A and B, mounting
one instance of each does NOT trigger exactly one static compilation and
one dynamic extraction in total.  Each call of `manageJss(styles)(Base)`
evaluates the inner function anew, creating a fresh `JSSManager` class with
its own static cache maps, so each class separates and compiles again:
there are two of each. -/
theorem c3_shared_styles_counterexample :
    ¬ (countStaticCompile (mountTwoClasses (fun _ => []) 7
          (Tree.cons "a" (Rule.lit "red")
            (Tree.cons "b" (Rule.resolver 0) Tree.nil))).2.2.trace = 1 ∧
       countEffect (mountTwoClasses (fun _ => []) 7
          (Tree.cons "a" (Rule.lit "red")
            (Tree.cons "b" (Rule.resolver 0) Tree.nil))).2.2.trace
          Effect.extractDynamicCall = 1) := by decide

/-- C3 amended: when two different component types are each wrapped with
the same style-set object (with both static and dynamic rules), mounting
one instance of A and then one of B triggers exactly two static
compilations and two dynamic extractions — one per wrapped class, since
each wrapped class carries its own cache — while producing two independent
dynamic stylesheet handles (1 and 3) and two independent registrations with
the shared stylesheet manager. -/
theorem c3_shared_styles_per_class (classes : Nat → Config) (r : Nat)
    (t : Tree) (hs : (getStaticStyles t).isEmpty = false)
    (hd : (getDynamicStyles t).isEmpty = false) :
    countEffect (mountTwoClasses classes r t).2.2.trace
      Effect.extractDynamicCall = 2 ∧
    countEffect (mountTwoClasses classes r t).2.2.trace
      Effect.extractStaticCall = 2 ∧
    countStaticCompile (mountTwoClasses classes r t).2.2.trace = 2 ∧
    (mountTwoClasses classes r t).1.1.state
      = some { staticStyleSheet := some 0, dynamicStyleSheet := some 1 } ∧
    (mountTwoClasses classes r t).2.1.1.state
      = some { staticStyleSheet := some 2, dynamicStyleSheet := some 3 } ∧
    countManagerAdd (mountTwoClasses classes r t).2.2.trace = 2 := by
  simp [mountTwoClasses, mountCore, ngOnInit, deliverConfig,
    ngAfterContentInitCore, separateStyles, jssCreateStyleSheet, World.emit,
    World.uuid, ngAfterViewInit, designSystem, alookup, aset, isEmptyObject,
    hs, hd, countEffect_append, countEffect_cons, countEffect_nil,
    countEffect_singleton, countStaticCompile_append, countStaticCompile_cons,
    countStaticCompile_singleton, countManagerAdd_append, countManagerAdd_cons,
    isStaticCompile, isManagerAdd, countEffect, countStaticCompile,
    countManagerAdd]

/-- Witness for the amended C3 at the style object `{a: "red", b: resolver}`. -/
theorem c3_shared_styles_per_class_witness :
    countEffect (mountTwoClasses (fun _ => []) 7
        (Tree.cons "a" (Rule.lit "red")
          (Tree.cons "b" (Rule.resolver 0) Tree.nil))).2.2.trace
      Effect.extractDynamicCall = 2 ∧
    countEffect (mountTwoClasses (fun _ => []) 7
        (Tree.cons "a" (Rule.lit "red")
          (Tree.cons "b" (Rule.resolver 0) Tree.nil))).2.2.trace
      Effect.extractStaticCall = 2 ∧
    countStaticCompile (mountTwoClasses (fun _ => []) 7
        (Tree.cons "a" (Rule.lit "red")
          (Tree.cons "b" (Rule.resolver 0) Tree.nil))).2.2.trace = 2 ∧
    (mountTwoClasses (fun _ => []) 7
        (Tree.cons "a" (Rule.lit "red")
          (Tree.cons "b" (Rule.resolver 0) Tree.nil))).1.1.state
      = some { staticStyleSheet := some 0, dynamicStyleSheet := some 1 } ∧
    (mountTwoClasses (fun _ => []) 7
        (Tree.cons "a" (Rule.lit "red")
          (Tree.cons "b" (Rule.resolver 0) Tree.nil))).2.1.1.state
      = some { staticStyleSheet := some 2, dynamicStyleSheet := some 3 } ∧
    countManagerAdd (mountTwoClasses (fun _ => []) 7
        (Tree.cons "a" (Rule.lit "red")
          (Tree.cons "b" (Rule.resolver 0) Tree.nil))).2.2.trace = 2 :=
  c3_shared_styles_per_class (fun _ => []) 7
    (Tree.cons "a" (Rule.lit "red") (Tree.cons "b" (Rule.resolver 0) Tree.nil))
    (by decide) (by decide)

/-- C4: wrapping the same component type with two style objects that are
distinct references but deeply equal in content (both hold the same tree
`t`), then mounting one instance of each wrapper, produces two independent
cache entries — each wrapper's `separatedStyles` map gains its own single
entry, under identifiers minted separately for each style reference — and
two separate classification passes (two dynamic and two static
extractions): the caching is keyed by object identity, never by structural
value. -/
theorem c4_identity_keyed_cache (classes : Nat → Config) (r1 r2 : Nat)
    (t : Tree) (_hne : r1 ≠ r2) :
    countEffect (mountTwoWrappings classes r1 r2 t).2.2.trace
      Effect.extractDynamicCall = 2 ∧
    countEffect (mountTwoWrappings classes r1 r2 t).2.2.trace
      Effect.extractStaticCall = 2 ∧
    (∃ sepA, alookup (mountTwoWrappings classes r1 r2 t).1.2.separatedStyles
      (1, 0) = some sepA) ∧
    (∃ sepB, alookup (mountTwoWrappings classes r1 r2 t).2.1.2.separatedStyles
      (3, 2) = some sepB) ∧
    (mountTwoWrappings classes r1 r2 t).1.2.separatedStyles.length = 1 ∧
    (mountTwoWrappings classes r1 r2 t).2.1.2.separatedStyles.length = 1 := by
  by_cases hs : (getStaticStyles t).isEmpty <;>
  by_cases hd : (getDynamicStyles t).isEmpty <;>
    simp [mountTwoWrappings, mountCore, ngOnInit, deliverConfig,
      ngAfterContentInitCore, separateStyles, jssCreateStyleSheet, World.emit,
      World.uuid, ngAfterViewInit, designSystem, alookup, aset, isEmptyObject,
      hs, hd, countEffect_append, countEffect_cons, countEffect_nil,
      countEffect_singleton, countEffect, isStaticCompile]

/-- Witness for C4 at two references 7 and 8 to deeply equal copies of
`{a: "red", b: resolver}`. -/
theorem c4_identity_keyed_cache_witness :
    countEffect (mountTwoWrappings (fun _ => []) 7 8
        (Tree.cons "a" (Rule.lit "red")
          (Tree.cons "b" (Rule.resolver 0) Tree.nil))).2.2.trace
      Effect.extractDynamicCall = 2 ∧
    countEffect (mountTwoWrappings (fun _ => []) 7 8
        (Tree.cons "a" (Rule.lit "red")
          (Tree.cons "b" (Rule.resolver 0) Tree.nil))).2.2.trace
      Effect.extractStaticCall = 2 ∧
    (∃ sepA, alookup (mountTwoWrappings (fun _ => []) 7 8
        (Tree.cons "a" (Rule.lit "red")
          (Tree.cons "b" (Rule.resolver 0) Tree.nil))).1.2.separatedStyles
      (1, 0) = some sepA) ∧
    (∃ sepB, alookup (mountTwoWrappings (fun _ => []) 7 8
        (Tree.cons "a" (Rule.lit "red")
          (Tree.cons "b" (Rule.resolver 0) Tree.nil))).2.1.2.separatedStyles
      (3, 2) = some sepB) ∧
    (mountTwoWrappings (fun _ => []) 7 8
        (Tree.cons "a" (Rule.lit "red")
          (Tree.cons "b" (Rule.resolver 0) Tree.nil))).1.2.separatedStyles.length
      = 1 ∧
    (mountTwoWrappings (fun _ => []) 7 8
        (Tree.cons "a" (Rule.lit "red")
          (Tree.cons "b" (Rule.resolver 0) Tree.nil))).2.1.2.separatedStyles.length
      = 1 :=
  c4_identity_keyed_cache (fun _ => []) 7 8
    (Tree.cons "a" (Rule.lit "red") (Tree.cons "b" (Rule.resolver 0) Tree.nil))
    (by decide)

/-- C8: in the mount trace of an instance, no Attached-phase effect
(registration with the shared manager, sheet attach) precedes any
Initialized-phase handle creation, and the dynamic sheet receives no
`update` before its first `attach`. -/
theorem c8_lifecycle_ordering (classes : Nat → Config) (r : Nat) (t : Tree) :
    phaseOrdered (mountCore {} {} classes r t).2.2.trace = true ∧
    (((mountCore {} {} classes r t).1.state.getD {}).dynamicStyleSheet.all
      (fun d => updatesOnlyAfterAttach d (mountCore {} {} classes r t).2.2.trace))
      = true := by
  by_cases hs : (getStaticStyles t).isEmpty <;>
  by_cases hd : (getDynamicStyles t).isEmpty <;>
    simp [mountCore, ngOnInit, deliverConfig, ngAfterContentInitCore,
      separateStyles, jssCreateStyleSheet, World.emit, World.uuid,
      ngAfterViewInit, designSystem, alookup, aset, isEmptyObject, hs, hd,
      phaseOrdered, updatesOnlyAfterAttach, isAttachedPhase, isCreation]

/-- C9 counterexample: a wrapper created with no style set at all
(`manageJss()`, allowed by the optional parameter) faults during mount —
line 148 runs `styleMap.set(undefined, uuid())`, and `WeakMap.set` throws a
`TypeError` on a non-object key — contradicting the claim that this
condition completes the mount-time lifecycle without a fault. -/
theorem c9_no_style_set_faults :
    mount {} {} (fun _ => []) none = Except.error JSError.invalidWeakMapKey := rfl

/-- C9 amended: for every style set that is actually supplied (including an
empty rule tree, one with no static rules or one with no dynamic rules, and
with no configuration ever delivered), the mount-time lifecycle completes
without raising a fault, and the absence of static or dynamic styles shows
up only as the omission of the corresponding state field. -/
theorem c9_absent_styles_are_normal (classes : Nat → Config) (r : Nat)
    (t : Tree) :
    (∃ out, mount {} {} classes (some (r, t)) = Except.ok out) ∧
    (mountCore {} {} classes r t).1.state.isSome = true ∧
    ((mountCore {} {} classes r t).1.state.getD {}).staticStyleSheet.isSome
      = !(getStaticStyles t).isEmpty ∧
    ((mountCore {} {} classes r t).1.state.getD {}).dynamicStyleSheet.isSome
      = !(getDynamicStyles t).isEmpty := by
  refine ⟨⟨mountCore {} {} classes r t, rfl⟩, ?_, ?_, ?_⟩ <;>
  by_cases hs : (getStaticStyles t).isEmpty <;>
  by_cases hd : (getDynamicStyles t).isEmpty <;>
    simp [mountCore, ngOnInit, deliverConfig, ngAfterContentInitCore,
      separateStyles, jssCreateStyleSheet, World.emit, World.uuid,
      ngAfterViewInit, designSystem, alookup, aset, isEmptyObject, hs, hd]

end ManageJss
